import Mathlib

/-!
Shallow embedding of the dmarcation rewrite-decision engine
(`src/milter/processor.py` and `src/utils/config.py`).

Python strings are modelled as lists of Unicode code points (`PyStr`).
Every string handled by the milter (header names and values, email local
parts, configuration keys, DMARC tag values) is ASCII, where code points
coincide with UTF-8 bytes, so the percent-codec is modelled at this level.
-/

abbrev PyStr := List Nat

/-- Interpret a Lean string literal as its list of code points. -/
def pystr (s : String) : PyStr := s.data.map Char.toNat

/-- Characters that `urllib.parse.quote` leaves unescaped under its default
`safe="/"`: ASCII letters, digits, `_`, `.`, `-`, `~`, and `/`. -/
def isQuoteSafe (b : Nat) : Bool :=
  decide ((65 ≤ b ∧ b ≤ 90) ∨ (97 ≤ b ∧ b ≤ 122) ∨ (48 ≤ b ∧ b ≤ 57) ∨
    b = 95 ∨ b = 46 ∨ b = 45 ∨ b = 126 ∨ b = 47)

/-- Upper-case hexadecimal digit for a nibble, as `urllib.parse.quote` emits it. -/
def hexDigitUpper (n : Nat) : Nat :=
  if n < 10 then 48 + n else 55 + n

/-- Hexadecimal digits accepted by `urllib.parse.unquote` (either case). -/
def isHexDigit (b : Nat) : Bool :=
  decide ((48 ≤ b ∧ b ≤ 57) ∨ (65 ≤ b ∧ b ≤ 70) ∨ (97 ≤ b ∧ b ≤ 102))

/-- Numeric value of a hexadecimal digit character. -/
def hexVal (b : Nat) : Nat :=
  if 48 ≤ b ∧ b ≤ 57 then b - 48
  else if 65 ≤ b ∧ b ≤ 70 then b - 55
  else if 97 ≤ b ∧ b ≤ 102 then b - 87
  else 0

/-- Model of `urllib.parse.quote` (default `safe="/"`) on the ASCII range: safe
characters pass through, every other character becomes `%` followed by two
upper-case hexadecimal digits. -/
def pyQuote (s : PyStr) : PyStr :=
  s.flatMap fun b =>
    if isQuoteSafe b then [b] else [37, hexDigitUpper (b / 16), hexDigitUpper (b % 16)]

/-- Model of `urllib.parse.unquote` on the ASCII range: a `%` followed by two
hexadecimal digits decodes to the corresponding character; a malformed percent
sequence is kept literally and scanning resumes at the next character. -/
def pyUnquote : PyStr → PyStr
  | [] => []
  | [b] => [b]
  | [b, a] => [b, a]
  | b :: a :: c :: rest2 =>
    if b = 37 && isHexDigit a && isHexDigit c then
      (hexVal a * 16 + hexVal c) :: pyUnquote rest2
    else
      b :: pyUnquote (a :: c :: rest2)

/-- Model of Python `str.replace(old, new)` for a non-empty pattern: scan left
to right, replacing non-overlapping occurrences greedily. -/
def pyReplace (old new : PyStr) : PyStr → PyStr
  | [] => []
  | b :: rest =>
    if h : old ≠ [] ∧ old.isPrefixOf (b :: rest) then
      new ++ pyReplace old new (List.drop old.length (b :: rest))
    else
      b :: pyReplace old new rest
termination_by s => s.length
decreasing_by
  · simp only [List.length_drop, List.length_cons]
    have : 0 < old.length := List.length_pos.mpr h.1
    omega
  · simp

/-- Embeds `quote_email_address` (processor.py line 134): quote the address as
if it were for a URL, then replace every `%` by the quote string (default `=`). -/
def quote_email_address (email_addr : PyStr) (percent_quote_char : PyStr) : PyStr :=
  pyReplace (pystr "%") percent_quote_char (pyQuote email_addr)

/-- Embeds `unquote_email_address` (processor.py line 144): reinstate the `%`
characters by replacing the quote string, then unquote as if from a URL. -/
def unquote_email_address (email_addr : PyStr) (percent_quote_char : PyStr) : PyStr :=
  pyUnquote (pyReplace percent_quote_char (pystr "%") email_addr)

/-- Detects a well-formed percent escape (`%` followed by two hexadecimal digits)
anywhere in the string; `pyUnquote` changes its input exactly at such escapes. -/
def hasValidEscape : PyStr → Bool
  | b :: a :: c :: rest => (b = 37 && isHexDigit a && isHexDigit c) || hasValidEscape (a :: c :: rest)
  | _ => false

/-- Requirement attached to a header name in the `rewrite.require` configuration
section: Python `True`/`False`, a literal string, a list of strings, or any other
configuration value (which no header satisfies). -/
inductive Req where
  | boolVal (b : Bool)
  | strVal (s : PyStr)
  | listVal (l : List PyStr)
  | other
deriving DecidableEq

/-- Value stored in the configuration: a string, a boolean, Python `None`, or a
nested section whose `as_dict()` may carry a `header` requirement mapping. -/
inductive CfgVal where
  | vStr (s : PyStr)
  | vBool (b : Bool)
  | vNone
  | vSection (hdr : Option (List (PyStr × Req)))
deriving DecidableEq

/-- The configuration store (the external `config.Config` collaborator): a key
lookup either yields a value or raises the absence signal (`ConfigError`/
`KeyError`), modelled as the error case. -/
abbrev Config := PyStr → Except Unit CfgVal

/-- Embeds `get_config_value` (config.py line 8): look `key` up directly; on the
absence signal, look up the legacy `dmarc.`-prefixed variant; on a second
absence signal, return the default. -/
def get_config_value (cfg : Config) (key : PyStr) (default : CfgVal) : CfgVal :=
  match cfg key with
  | .ok v => v
  | .error _ =>
    match cfg (pystr "dmarc." ++ key) with
    | .ok v => v
    | .error _ => default

/-- Split a string at the first occurrence of `sep`, returning the parts before
and after it, or `none` when `sep` does not occur. -/
def breakAt (sep : Nat) : PyStr → Option (PyStr × PyStr)
  | [] => none
  | b :: rest =>
    if b = sep then some ([], rest)
    else (breakAt sep rest).map fun p => (b :: p.1, p.2)

/-- Model of Python `s.split(sep, 2)`: split at the first two occurrences of the
separator, leaving the remainder (which may still contain separators) as the
last element. -/
def pySplit2 (sep : Nat) (s : PyStr) : List PyStr :=
  match breakAt sep s with
  | none => [s]
  | some (a, r) =>
    match breakAt sep r with
    | none => [a, r]
    | some (b, r2) => [a, b, r2]

/-- Embeds `extract_domain` (processor.py line 154):
`email_addr.split("@", 2)[1] if "@" in email_addr else False`; the Python
`False` result is modelled as `none`. -/
def extract_domain (email_addr : PyStr) : Option PyStr :=
  if 64 ∈ email_addr then (pySplit2 64 email_addr)[1]? else none

/-- Embeds `extract_localpart` (processor.py line 159):
`email_addr.split("@", 2)[0] if "@" in email_addr else email_addr`. -/
def extract_localpart (email_addr : PyStr) : PyStr :=
  if 64 ∈ email_addr then (pySplit2 64 email_addr).headD [] else email_addr

/-- ASCII whitespace stripped by Python `str.strip()` (the headers handled here
are ASCII). -/
def isPySpace (b : Nat) : Bool :=
  decide (b = 32 ∨ b = 9 ∨ b = 10 ∨ b = 13 ∨ b = 11 ∨ b = 12)

/-- Model of Python `str.strip()`: drop leading and trailing whitespace. -/
def pyStrip (s : PyStr) : PyStr :=
  ((s.dropWhile isPySpace).reverse.dropWhile isPySpace).reverse

/-- Model of `required_config["header"].get(name, None)`: dictionary lookup in
the requirement mapping. -/
def lookupReq (m : List (PyStr × Req)) (name : PyStr) : Option Req :=
  (m.find? fun p => decide (p.1 = name)).map (·.2)

/-- Embeds `check_required_headers` (processor.py line 17): true when no
`header` mapping is configured; otherwise true as soon as some captured header
(matched by exact name) has a requirement that its stripped value satisfies
(`True` requirement: any value; string: equality; list: membership). -/
def check_required_headers (required_config : Option (List (PyStr × Req)))
    (headers : List (PyStr × PyStr)) : Bool :=
  match required_config with
  | none => true
  | some m =>
    headers.any fun h =>
      match lookupReq m h.1 with
      | some (.boolVal b) => b
      | some (.strVal s) => decide (pyStrip h.2 = s)
      | some (.listVal l) => decide (pyStrip h.2 ∈ l)
      | some .other => false
      | none => false

/-- Python exceptions that can escape the embedded functions. -/
inductive PyErr where
  | keyError
  | attributeError
  | unboundLocalError
deriving DecidableEq

/-- Modelled from the spec (§6 PolicyOracle): a DMARC record
`{location: string, tags: {p: string, sp?: string}}` — the resolved location,
the mandatory `p` tag value and the optional `sp` tag value. -/
structure DmarcRecord where
  location : PyStr
  p : PyStr
  sp : Option PyStr
deriving DecidableEq

/-- Modelled from the spec (§6 PolicyOracle): `get_dmarc_record` either returns
a record or fails with a DMARC lookup error (the `DMARCError` the caller
catches), modelled as the error case. -/
abbrev Oracle := PyStr → Except Unit DmarcRecord

/-- The enforcement values treated as "mail would be rejected" (processor.py
line 50). -/
def no_mail_values : List PyStr := [pystr "reject", pystr "quarantine"]

/-- The tag that governs a domain per the claim: `p` when the queried domain
equals the record's resolved location, `sp` when it differs. -/
def governingTag (r : DmarcRecord) (domain : PyStr) : Option PyStr :=
  if r.location = domain then some r.p else r.sp

/-- Embeds `check_dmarc_rejection` (processor.py line 42): a lookup failure is
caught and yields `False`; for the record's own domain the `p` tag decides; for
a subdomain the `sp` tag decides, and indexing a missing `sp` raises a
`KeyError` that the `except dmarc.DMARCError` clause does not catch. -/
def check_dmarc_rejection (oracle : Oracle) (domain : PyStr) : Except PyErr Bool :=
  match oracle domain with
  | .error _ => .ok false
  | .ok r =>
    if r.location = domain then
      .ok (decide (r.p ∈ no_mail_values))
    else
      match r.sp with
      | none => .error .keyError
      | some v => .ok (decide (v ∈ no_mail_values))

/-- Embeds `check_all_dmarc_rejections` (processor.py line 92): return `False`
at the first domain whose check is `False`, `True` when every check passes; an
exception from a per-domain check propagates. -/
def check_all_dmarc_rejections (oracle : Oracle) : List PyStr → Except PyErr Bool
  | [] => .ok true
  | d :: rest =>
    match check_dmarc_rejection oracle d with
    | .error e => .error e
    | .ok false => .ok false
    | .ok true => check_all_dmarc_rejections oracle rest

/-- A captured header: name and (decoded) value. Identity is the captured
snapshot itself; mutation happens only through explicit session operations. -/
structure Header where
  name : PyStr
  value : PyStr
deriving DecidableEq

/-- Header mutations issued against the milter session, in order: insert a new
header anchored at `END`, update a captured header's value, delete a captured
header. -/
inductive SessionOp where
  | insertEnd (h : Header)
  | update (target : Header) (newValue : PyStr)
  | delete (target : Header)
deriving DecidableEq

/-- Responses the handler can return to the milter runtime. -/
inductive MilterResponse where
  | accept
  | discard
deriving DecidableEq

/-- Modelled from the spec (§1, external collaborators): the formatting done by
`str(Address(display_name, username, domain))` from `email.headerregistry`,
an external collaborator abstracted as a function of the three components. -/
abbrev AddressFormatter := PyStr → PyStr → PyStr → PyStr

/-- Modelled from the spec (§4.5): parsing of a From header value into
display-name/address pairs (`email.utils.getaddresses`), an external
collaborator abstracted as a function. -/
abbrev GetAddresses := PyStr → List (PyStr × PyStr)

/-- Embeds `rewrite_email_address` (processor.py line 109): build an address
from the display name, the quoted original address as local part, and the
rewrite domain. -/
def rewrite_email_address (fmt : AddressFormatter) (email : PyStr × PyStr)
    (domain : PyStr) (quote_char : PyStr) : PyStr :=
  fmt email.1 (quote_email_address email.2 quote_char) domain

/-- Model of Python `sep.join(parts)`. -/
def joinSep (sep : PyStr) : List PyStr → PyStr
  | [] => []
  | [a] => a
  | a :: rest => a ++ sep ++ joinSep sep rest

/-- Embeds `rewrite_forward` (processor.py line 164). The whole body runs under
`except Exception`, so the function is total and returns `False` on an internal
fault: a propagated per-domain `KeyError`, a non-string rewrite configuration
(which would make the address construction raise), or the final
`session.headers.update(None, ...)` when the message has no From header (the
`X-Original-From` insert has already been issued at that point). The operations
issued before a fault remain in the returned list. -/
def rewrite_forward (ga : GetAddresses) (oracle : Oracle) (fmt : AddressFormatter)
    (cfg : Config) (from_header : Option Header) (from_value : PyStr) :
    List SessionOp × Bool :=
  let header_from_addresses := ga from_value
  let from_domains :=
    ((header_from_addresses.map fun email => extract_domain email.2).filterMap id).filter
      fun d => !d.isEmpty
  match check_all_dmarc_rejections oracle from_domains with
  | .error _ => ([], false)
  | .ok should_reject =>
    if should_reject = false then ([], true)
    else
      match get_config_value cfg (pystr "domain") .vNone,
          get_config_value cfg (pystr "rewrite.quote_char") (.vStr (pystr "=")) with
      | .vStr dom, .vStr qc =>
        let replacement_addresses :=
          header_from_addresses.map fun email => rewrite_email_address fmt email dom qc
        let replacement_from := pystr " " ++ joinSep (pystr ", ") replacement_addresses
        match from_header with
        | some fh =>
          ([.insertEnd ⟨pystr "X-Original-From", from_value⟩, .update fh replacement_from],
            true)
        | none => ([.insertEnd ⟨pystr "X-Original-From", from_value⟩], false)
      | _, _ => ([], false)

/-- Embeds `rewrite_reverse` (processor.py line 224). The guard checks only the
X-Original-From header and value (Python truthiness: a missing value or the
empty string fails the guard); the From header is not checked, the delete is
issued unconditionally after the guard, and the subsequent
`session.headers.update(None, ...)` on a message without a From header raises —
there is no exception handler in this function. -/
def rewrite_reverse (from_header original_from_header : Option Header)
    (original_from_value : Option PyStr) : List SessionOp × Except PyErr Bool :=
  match original_from_header, original_from_value with
  | some ofh, some ofv =>
    if ofv = [] then ([], .ok false)
    else
      match from_header with
      | some fh => ([.delete ofh, .update fh ofv], .ok true)
      | none => ([.delete ofh], .error .attributeError)
  | _, _ => ([], .ok false)

/-- ASCII model of Python `str.lower()` (header names are ASCII). -/
def pyLower (s : PyStr) : PyStr :=
  s.map fun b => if 65 ≤ b ∧ b ≤ 90 then b + 32 else b

/-- The local variables `handle` accumulates while iterating over the session's
headers: the last-seen From and X-Original-From headers and values, and the
captured header list. -/
structure ScanState where
  from_header : Option Header
  from_value : Option PyStr
  original_from_header : Option Header
  original_from_value : Option PyStr
  mail_headers : List (PyStr × PyStr)
deriving DecidableEq

/-- One iteration of `handle`'s header-capture loop (processor.py lines
267-282): record the entry and remember From / X-Original-From (matched on the
lower-cased name; a later occurrence overwrites an earlier one). -/
def scanStep (st : ScanState) (h : Header) : ScanState :=
  if pyLower h.name = pystr "from" then
    { st with
      from_header := some h
      from_value := some h.value
      mail_headers := st.mail_headers ++ [(h.name, h.value)] }
  else if pyLower h.name = pystr "x-original-from" then
    { st with
      original_from_header := some h
      original_from_value := some h.value
      mail_headers := st.mail_headers ++ [(h.name, h.value)] }
  else
    { st with mail_headers := st.mail_headers ++ [(h.name, h.value)] }

/-- The header-capture loop of `handle`: fold `scanStep` over the session's
headers, starting from unset locals. -/
def scanHeaders (headers : List Header) : ScanState :=
  headers.foldl scanStep ⟨none, none, none, none, []⟩

/-- Python truthiness of a configuration value (`if not required_config_entry`,
`if ... and get_config_value(...)`): `None` and empty/false values are falsy; a
section object is truthy. -/
def cfgTruthy : CfgVal → Bool
  | .vStr s => !s.isEmpty
  | .vBool b => b
  | .vNone => false
  | .vSection _ => true

/-- Embeds `required_config = {} if not required_config_entry else
required_config_entry.as_dict()` (processor.py line 287): a falsy entry yields
the empty dict (no `header` mapping); `as_dict()` on a truthy non-section value
raises. -/
def requiredFromCfg (v : CfgVal) : Except PyErr (Option (List (PyStr × Req))) :=
  if cfgTruthy v = false then .ok none
  else
    match v with
    | .vSection m => .ok m
    | _ => .error .attributeError

/-- Embeds `handle` (processor.py line 249): capture the headers, evaluate the
required-header gate, then reverse-rewrite (when an X-Original-From header was
seen and reverse mode is enabled), else forward-rewrite (when forward mode is
enabled), else accept. `handle` itself has no exception handler: an error from
`rewrite_reverse`, or the unbound `from_value` at the `rewrite_forward` call
site when the message has no From header, escapes to the milter runtime
(modelled as an `.error` outcome alongside the operations already issued). -/
def handle (ga : GetAddresses) (oracle : Oracle) (fmt : AddressFormatter)
    (cfg : Config) (headers : List Header) :
    List SessionOp × Except PyErr MilterResponse :=
  let st := scanHeaders headers
  match requiredFromCfg (get_config_value cfg (pystr "rewrite.require") .vNone) with
  | .error e => ([], .error e)
  | .ok required_config =>
    if check_required_headers required_config st.mail_headers = false then
      ([], .ok .accept)
    else if st.original_from_header.isSome &&
        cfgTruthy (get_config_value cfg (pystr "rewrite.reverse") (.vBool true)) then
      match rewrite_reverse st.from_header st.original_from_header st.original_from_value with
      | (ops, .ok _) => (ops, .ok .accept)
      | (ops, .error e) => (ops, .error e)
    else if cfgTruthy (get_config_value cfg (pystr "rewrite.forward") (.vBool true)) then
      match st.from_value with
      | none => ([], .error .unboundLocalError)
      | some v => ((rewrite_forward ga oracle fmt cfg st.from_header v).1, .ok .accept)
    else ([], .ok .accept)

theorem hexVal_hexDigitUpper (n : Nat) (h : n < 16) : hexVal (hexDigitUpper n) = n := by
  unfold hexDigitUpper hexVal
  split_ifs <;> omega

theorem isHexDigit_hexDigitUpper (n : Nat) (h : n < 16) :
    isHexDigit (hexDigitUpper n) = true := by
  unfold hexDigitUpper isHexDigit
  split_ifs <;> (apply decide_eq_true; omega)

theorem isQuoteSafe_hexDigitUpper (n : Nat) (h : n < 16) :
    isQuoteSafe (hexDigitUpper n) = true := by
  unfold hexDigitUpper isQuoteSafe
  split_ifs <;> (apply decide_eq_true; omega)

theorem pyUnquote_cons_ne (b : Nat) (l : PyStr) (hb : b ≠ 37) :
    pyUnquote (b :: l) = b :: pyUnquote l := by
  match l with
  | [] => simp [pyUnquote]
  | [a] => simp [pyUnquote]
  | a :: c :: r => simp [pyUnquote, hb]

theorem pyUnquote_escape (h1 h2 : Nat) (l : PyStr)
    (hh1 : isHexDigit h1 = true) (hh2 : isHexDigit h2 = true) :
    pyUnquote (37 :: h1 :: h2 :: l) = (hexVal h1 * 16 + hexVal h2) :: pyUnquote l := by
  simp [pyUnquote, hh1, hh2]

theorem pyUnquote_pyQuote (x : PyStr) (hx : ∀ b ∈ x, b < 128) :
    pyUnquote (pyQuote x) = x := by
  induction x with
  | nil => rfl
  | cons b rest ih =>
    have hb : b < 128 := hx b (List.mem_cons_self _ _)
    have hr : ∀ c ∈ rest, c < 128 := fun c hc => hx c (List.mem_cons_of_mem _ hc)
    by_cases hs : isQuoteSafe b = true
    · have hb37 : b ≠ 37 := by
        intro hcontra
        rw [hcontra] at hs
        exact absurd hs (by decide)
      rw [show pyQuote (b :: rest) = b :: pyQuote rest from by simp [pyQuote, hs]]
      rw [pyUnquote_cons_ne b _ hb37, ih hr]
    · rw [show pyQuote (b :: rest) =
          37 :: hexDigitUpper (b / 16) :: hexDigitUpper (b % 16) :: pyQuote rest from by
        simp [pyQuote, hs]]
      rw [pyUnquote_escape _ _ _ (isHexDigit_hexDigitUpper _ (by omega))
        (isHexDigit_hexDigitUpper _ (by omega))]
      rw [hexVal_hexDigitUpper _ (by omega), hexVal_hexDigitUpper _ (by omega), ih hr]
      congr 1
      omega

theorem pyReplace_single (c d : Nat) (s : PyStr) :
    pyReplace [c] [d] s = s.map (fun b => if b = c then d else b) := by
  induction s with
  | nil => simp [pyReplace]
  | cons b rest ih =>
    by_cases hbc : b = c
    · subst hbc
      rw [show pyReplace [b] [d] (b :: rest) = [d] ++ pyReplace [b] [d] rest from by
        simp [pyReplace, List.isPrefixOf]]
      simp [ih]
    · rw [show pyReplace [c] [d] (b :: rest) = b :: pyReplace [c] [d] rest from by
        simp [pyReplace, List.isPrefixOf, hbc]
        exact fun h => absurd h.symm hbc]
      simp [ih, hbc]

theorem subst_roundtrip (q : Nat) (l : PyStr)
    (hl : ∀ b ∈ l, b = 37 ∨ isQuoteSafe b = true) (hq : isQuoteSafe q = false) :
    pyReplace [q] [37] (pyReplace [37] [q] l) = l := by
  rw [pyReplace_single, pyReplace_single, List.map_map]
  conv_rhs => rw [← List.map_id l]
  apply List.map_congr_left
  intro b hb
  rcases hl b hb with h37 | hsafe
  · subst h37
    simp
  · have hbq : b ≠ q := by
      intro hcontra
      rw [hcontra, hq] at hsafe
      cases hsafe
    have hb37 : b ≠ 37 := by
      intro hcontra
      rw [hcontra] at hsafe
      exact absurd hsafe (by decide)
    simp [hb37, hbq]

theorem pyQuote_mem (x : PyStr) (hx : ∀ b ∈ x, b < 128) :
    ∀ c ∈ pyQuote x, c = 37 ∨ isQuoteSafe c = true := by
  intro c hc
  simp only [pyQuote, List.mem_flatMap] at hc
  obtain ⟨b, hb, hcb⟩ := hc
  have hblt : b < 128 := hx b hb
  split at hcb
  · rename_i hs
    rw [List.mem_singleton] at hcb
    exact Or.inr (hcb ▸ hs)
  · rcases List.mem_cons.mp hcb with h | hcb2
    · exact Or.inl h
    rcases List.mem_cons.mp hcb2 with h | hcb3
    · exact Or.inr (h ▸ isQuoteSafe_hexDigitUpper _ (by omega))
    rw [List.mem_singleton] at hcb3
    exact Or.inr (hcb3 ▸ isQuoteSafe_hexDigitUpper _ (by omega))

/-- Claim C1: for every local part `x` over the accepted (ASCII) character set and
every single-character quote symbol `q` that cannot appear unescaped in the
percent-encoded alphabet (i.e. is not one of the characters `quote` leaves bare),
decoding the encoding round-trips exactly:
`unquote_email_address (quote_email_address x q) q = x`. -/
theorem C1_quote_unquote_roundtrip (x : PyStr) (q : Nat)
    (hx : ∀ b ∈ x, b < 128) (hq : isQuoteSafe q = false) :
    unquote_email_address (quote_email_address x [q]) [q] = x := by
  unfold quote_email_address unquote_email_address
  rw [show pystr "%" = [37] from rfl]
  rw [subst_roundtrip q _ (pyQuote_mem x hx) hq]
  exact pyUnquote_pyQuote x hx

/-- Witness for C1: the round-trip at the concrete local part `someone@example.com`
with the default quote character `=` (code point 61). -/
theorem C1_witness :
    (∀ b ∈ pystr "someone@example.com", b < 128) ∧ isQuoteSafe 61 = false ∧
    unquote_email_address (quote_email_address (pystr "someone@example.com") [61]) [61] =
      pystr "someone@example.com" :=
  ⟨by decide, by decide, C1_quote_unquote_roundtrip _ 61 (by decide) (by decide)⟩

theorem pyUnquote_id (s : PyStr) (h : hasValidEscape s = false) : pyUnquote s = s :=
  match s with
  | [] => rfl
  | [_] => rfl
  | [_, _] => rfl
  | b :: a :: c :: rest => by
    have hsplit : (b = 37 && isHexDigit a && isHexDigit c) = false ∧
        hasValidEscape (a :: c :: rest) = false := by
      have := h
      rw [hasValidEscape, Bool.or_eq_false_iff] at this
      exact this
    simp only [pyUnquote, hsplit.1, Bool.false_eq_true, if_false]
    rw [pyUnquote_id (a :: c :: rest) hsplit.2]

/-- Counterexample to Claim C7: the input `=41=4` (quote character `=`) contains a
malformed percent sequence after quote-character substitution (`%41%4` ends in the
malformed `%4`), yet `unquote_email_address` returns `A%4`, which is neither the
input nor the substituted input: the substitution and the decoding of the
well-formed sequence still take place. -/
theorem C7_counterexample :
    unquote_email_address (pystr "=41=4") (pystr "=") = pystr "A%4" ∧
    pystr "A%4" ≠ pystr "=41=4" ∧ pystr "A%4" ≠ pystr "%41%4" := by
  refine ⟨?_, by decide, by decide⟩
  show pyUnquote (pyReplace [61] [37] (pystr "=41=4")) = pystr "A%4"
  rw [pyReplace_single]
  decide

/-- Claim C7 (amended): `unquote_email_address` is total (malformed percent
sequences never raise into the caller, they are preserved literally), but the
input is returned unmodified only when no decoding work applies: for every input
containing no occurrence of the single-character quote symbol and no well-formed
percent escape, the result is the unmodified input. -/
theorem C7_unquote_malformed_amended (s : PyStr) (q : Nat)
    (hq : q ∉ s) (hmal : hasValidEscape s = false) :
    unquote_email_address s [q] = s := by
  unfold unquote_email_address
  rw [show pystr "%" = [37] from rfl, pyReplace_single]
  rw [show s.map (fun b => if b = q then 37 else b) = s from by
    conv_rhs => rw [← List.map_id s]
    apply List.map_congr_left
    intro b hb
    have hbq : ¬b = q := fun hcontra => hq (by rw [← hcontra]; exact hb)
    exact if_neg hbq]
  exact pyUnquote_id s hmal

/-- Witness for the amended C7: the input `%4zz` with quote character `=` contains
only a malformed escape and no quote character, and is returned unmodified. -/
theorem C7_witness :
    (61 : Nat) ∉ pystr "%4zz" ∧ hasValidEscape (pystr "%4zz") = false ∧
    unquote_email_address (pystr "%4zz") [61] = pystr "%4zz" :=
  ⟨by decide, by decide, C7_unquote_malformed_amended _ 61 (by decide) (by decide)⟩

/-- Claim C8: `get_config_value` returns `cfg[key]` when that lookup yields a
value; otherwise the value at the fixed legacy key `"dmarc." + key` when
present; otherwise the default — and absence at either level is an ordinary
result, never an escaping exception (the function is total on the absence
signal). -/
theorem C8_get_config_value (cfg : Config) (key : PyStr) (default : CfgVal) :
    (∀ v, cfg key = .ok v → get_config_value cfg key default = v) ∧
    (∀ e v, cfg key = .error e → cfg (pystr "dmarc." ++ key) = .ok v →
      get_config_value cfg key default = v) ∧
    (∀ e e', cfg key = .error e → cfg (pystr "dmarc." ++ key) = .error e' →
      get_config_value cfg key default = default) :=
  ⟨fun v hv => by simp [get_config_value, hv],
    fun e v he hv => by simp [get_config_value, he, hv],
    fun e e' he he' => by simp [get_config_value, he, he']⟩

/-- Witness for C8: a concrete store with a top-level key, a legacy-only key and
a missing key, resolved through all three paths. -/
theorem C8_witness :
    get_config_value
      (fun k => if k = pystr "toplevel" then .ok (.vStr (pystr "top"))
        else if k = pystr "dmarc.subkey" then .ok (.vStr (pystr "sub"))
        else .error ())
      (pystr "toplevel") .vNone = .vStr (pystr "top") ∧
    get_config_value
      (fun k => if k = pystr "toplevel" then .ok (.vStr (pystr "top"))
        else if k = pystr "dmarc.subkey" then .ok (.vStr (pystr "sub"))
        else .error ())
      (pystr "subkey") .vNone = .vStr (pystr "sub") ∧
    get_config_value
      (fun k => if k = pystr "toplevel" then .ok (.vStr (pystr "top"))
        else if k = pystr "dmarc.subkey" then .ok (.vStr (pystr "sub"))
        else .error ())
      (pystr "nosuchkey") (.vStr (pystr "default")) = .vStr (pystr "default") :=
  ⟨(C8_get_config_value _ _ _).1 _ rfl,
    (C8_get_config_value _ _ _).2.1 () _ rfl rfl,
    (C8_get_config_value _ _ _).2.2 () () rfl rfl⟩

theorem breakAt_of_not_mem (sep : Nat) (a : PyStr) (ha : sep ∉ a) :
    breakAt sep a = none := by
  induction a with
  | nil => rfl
  | cons x xs ih =>
    have hx : ¬x = sep := by
      intro hcontra
      exact ha (by rw [hcontra]; exact List.mem_cons_self _ _)
    simp [breakAt, hx, ih fun hcontra => ha (List.mem_cons_of_mem _ hcontra)]

theorem breakAt_append (sep : Nat) (a r : PyStr) (ha : sep ∉ a) :
    breakAt sep (a ++ sep :: r) = some (a, r) := by
  induction a with
  | nil => simp [breakAt]
  | cons x xs ih =>
    have hx : ¬x = sep := by
      intro hcontra
      exact ha (by rw [hcontra]; exact List.mem_cons_self _ _)
    simp [breakAt, hx, ih fun hcontra => ha (List.mem_cons_of_mem _ hcontra)]

/-- Counterexample to Claim C9: for the string `a@b@c`, which contains more than
one `@`, `extract_domain` returns only `b` (the segment between the first and
second `@`, because the source splits with `maxsplit=2` and takes element 1),
not the entire substring `b@c` after the first `@`. -/
theorem C9_counterexample :
    extract_domain (pystr "a@b@c") = some (pystr "b") ∧
    some (pystr "b") ≠ some (pystr "b@c") :=
  ⟨by decide, by decide⟩

/-- Claim C9 (amended): `extract_localpart` returns the substring before the
first `@` (the whole string when no `@` occurs), and `extract_domain` returns
`none` (Python `False`) when no `@` occurs, the remainder after the `@` when
exactly one occurs, and — because the source splits on the first two `@`
occurrences — only the segment between the first and second `@` when two or
more occur. -/
theorem C9_extract_parts_amended (a b c : PyStr) (ha : 64 ∉ a) (hb : 64 ∉ b) :
    (extract_localpart a = a ∧ extract_domain a = none) ∧
    (extract_localpart (a ++ 64 :: b) = a ∧ extract_domain (a ++ 64 :: b) = some b) ∧
    (extract_localpart (a ++ 64 :: (b ++ 64 :: c)) = a ∧
      extract_domain (a ++ 64 :: (b ++ 64 :: c)) = some b) := by
  refine ⟨⟨?_, ?_⟩, ⟨?_, ?_⟩, ⟨?_, ?_⟩⟩
  · simp [extract_localpart, ha]
  · simp [extract_domain, ha]
  · simp [extract_localpart, pySplit2, breakAt_append 64 a b ha, breakAt_of_not_mem 64 b hb]
  · simp [extract_domain, pySplit2, breakAt_append 64 a b ha, breakAt_of_not_mem 64 b hb]
  · simp [extract_localpart, pySplit2, breakAt_append 64 a (b ++ 64 :: c) ha,
      breakAt_append 64 b c hb]
  · simp [extract_domain, pySplit2, breakAt_append 64 a (b ++ 64 :: c) ha,
      breakAt_append 64 b c hb]

/-- Witness for the amended C9: the three shapes at concrete addresses. -/
theorem C9_witness :
    (64 : Nat) ∉ pystr "someone" ∧ (64 : Nat) ∉ pystr "example.com" ∧
    extract_localpart (pystr "someone" ++ 64 :: pystr "example.com") = pystr "someone" ∧
    extract_domain (pystr "someone" ++ 64 :: (pystr "example.com" ++ 64 :: pystr "evil.example")) =
      some (pystr "example.com") :=
  ⟨by decide, by decide,
    (C9_extract_parts_amended (pystr "someone") (pystr "example.com") (pystr "evil.example")
      (by decide) (by decide)).2.1.1,
    (C9_extract_parts_amended (pystr "someone") (pystr "example.com") (pystr "evil.example")
      (by decide) (by decide)).2.2.2⟩

/-- Claim C6: with no header-requirement mapping `check_required_headers`
returns true; otherwise it returns true if and only if at least one captured
header's case-sensitively matched name has a configured requirement that its
whitespace-trimmed value satisfies — a `True` requirement by any value, a
string requirement by exact equality of the trimmed value, a list requirement
by membership — and false otherwise, including when all required headers are
absent. -/
theorem C6_check_required_headers (rc : Option (List (PyStr × Req)))
    (headers : List (PyStr × PyStr)) :
    (rc = none → check_required_headers rc headers = true) ∧
    (∀ m, rc = some m →
      (check_required_headers rc headers = true ↔
        ∃ h ∈ headers, ∃ r, lookupReq m h.1 = some r ∧
          (r = .boolVal true ∨ (∃ s, r = .strVal s ∧ pyStrip h.2 = s) ∨
            (∃ l, r = .listVal l ∧ pyStrip h.2 ∈ l)))) := by
  constructor
  · intro h
    rw [h]
    rfl
  · intro m hm
    subst hm
    simp only [check_required_headers, List.any_eq_true]
    constructor
    · rintro ⟨h, hh, hp⟩
      refine ⟨h, hh, ?_⟩
      revert hp
      cases hlr : lookupReq m h.1 with
      | none => exact fun hp => Bool.noConfusion hp
      | some r =>
        intro hp
        cases r with
        | boolVal b =>
          cases b with
          | false => exact Bool.noConfusion hp
          | true => exact ⟨.boolVal true, rfl, Or.inl rfl⟩
        | strVal s =>
          exact ⟨.strVal s, rfl, Or.inr (Or.inl ⟨s, rfl, of_decide_eq_true hp⟩)⟩
        | listVal l =>
          exact ⟨.listVal l, rfl, Or.inr (Or.inr ⟨l, rfl, of_decide_eq_true hp⟩)⟩
        | other => exact Bool.noConfusion hp
    · rintro ⟨h, hh, r, hlr, hcase⟩
      refine ⟨h, hh, ?_⟩
      rw [hlr]
      rcases hcase with hb | ⟨s, hs, hv⟩ | ⟨l, hl, hv⟩
      · subst hb
        rfl
      · subst hs
        exact decide_eq_true hv
      · subst hl
        exact decide_eq_true hv

/-- Witness for C6: a concrete string requirement on `X-H` satisfied by a
captured header whose value matches after trimming. -/
theorem C6_witness :
    check_required_headers (some [(pystr "X-H", Req.strVal (pystr "V"))])
      [(pystr "X-H", pystr " V ")] = true :=
  ((C6_check_required_headers _ _).2 _ rfl).mpr
    ⟨(pystr "X-H", pystr " V "), by decide, Req.strVal (pystr "V"), by decide,
      Or.inr (Or.inl ⟨pystr "V", rfl, by decide⟩)⟩

/-- Counterexample to Claim C3: an oracle that resolves the record at the
organizational domain `example.com` with `p=reject` but no `sp` tag. For the
subdomain `sub.example.com` the governing tag (`sp`) is absent and
`check_dmarc_rejection` raises an uncaught `KeyError` (only `DMARCError` is
caught) instead of returning false. -/
theorem C3_counterexample :
    check_dmarc_rejection (fun _ => .ok ⟨pystr "example.com", pystr "reject", none⟩)
      (pystr "sub.example.com") = .error .keyError ∧
    (Except.error PyErr.keyError : Except PyErr Bool) ≠ .ok false :=
  ⟨rfl, fun hcontra => Except.noConfusion hcontra⟩

/-- Claim C3 (amended): `check_dmarc_rejection` returns true iff the oracle
yields a record whose governing tag (`p` when the queried domain equals the
record's resolved location, `sp` when it differs) is present and lies in
{reject, quarantine}; a lookup failure (`DMARCError`) is caught and yields
false; but a returned record lacking the governing tag makes the function raise
a `KeyError` rather than return false. -/
theorem C3_check_dmarc_rejection_amended (oracle : Oracle) (domain : PyStr) :
    (check_dmarc_rejection oracle domain = .ok true ↔
      ∃ r v, oracle domain = .ok r ∧ governingTag r domain = some v ∧
        v ∈ no_mail_values) ∧
    (∀ e, oracle domain = .error e → check_dmarc_rejection oracle domain = .ok false) ∧
    (∀ r, oracle domain = .ok r → governingTag r domain = none →
      check_dmarc_rejection oracle domain = .error .keyError) := by
  cases horacle : oracle domain with
  | error e =>
    refine ⟨?_, ?_, ?_⟩
    · simp [check_dmarc_rejection, horacle]
    · intro e' _
      simp [check_dmarc_rejection, horacle]
    · intro r hr
      exact Except.noConfusion hr
  | ok r =>
    by_cases hl : r.location = domain
    · refine ⟨?_, ?_, ?_⟩
      · simp [check_dmarc_rejection, horacle, hl, governingTag]
      · intro e' he'
        exact Except.noConfusion he'
      · intro r' hr' hg
        injection hr' with h
        subst h
        simp only [governingTag, if_pos hl] at hg
        exact Option.noConfusion hg
    · cases hsp : r.sp with
      | none =>
        refine ⟨?_, ?_, ?_⟩
        · simp [check_dmarc_rejection, horacle, hl, hsp, governingTag]
        · intro e' he'
          exact Except.noConfusion he'
        · intro r' hr' _
          injection hr' with h
          subst h
          simp [check_dmarc_rejection, horacle, hl, hsp]
      | some v =>
        refine ⟨?_, ?_, ?_⟩
        · simp [check_dmarc_rejection, horacle, hl, hsp, governingTag]
        · intro e' he'
          exact Except.noConfusion he'
        · intro r' hr' hg
          injection hr' with h
          subst h
          simp only [governingTag, if_neg hl, hsp] at hg
          exact Option.noConfusion hg

/-- Witness for the amended C3: an organizational domain with `p=reject`
evaluates to true through the amended characterization. -/
theorem C3_witness :
    check_dmarc_rejection (fun _ => .ok ⟨pystr "example.com", pystr "reject", none⟩)
      (pystr "example.com") = .ok true :=
  (C3_check_dmarc_rejection_amended _ _).1.mpr
    ⟨⟨pystr "example.com", pystr "reject", none⟩, pystr "reject", rfl, rfl, by decide⟩

/-- Claim C4: `check_all_dmarc_rejections` returns true iff `check_dmarc_rejection`
returns true for every domain in the sequence, and it short-circuits to false at
the first domain whose check evaluates to false (every earlier domain having
evaluated to true), whatever follows it. -/
theorem C4_check_all_dmarc_rejections (oracle : Oracle) (domains : List PyStr) :
    (check_all_dmarc_rejections oracle domains = .ok true ↔
      ∀ d ∈ domains, check_dmarc_rejection oracle d = .ok true) ∧
    (∀ ds1 d ds2, domains = ds1 ++ d :: ds2 →
      (∀ d' ∈ ds1, check_dmarc_rejection oracle d' = .ok true) →
      check_dmarc_rejection oracle d = .ok false →
      check_all_dmarc_rejections oracle domains = .ok false) := by
  constructor
  · induction domains with
    | nil => simp [check_all_dmarc_rejections]
    | cons d rest ih =>
      cases hc : check_dmarc_rejection oracle d with
      | error e =>
        simp only [check_all_dmarc_rejections, hc]
        constructor
        · intro h
          exact Except.noConfusion h
        · intro hall
          have := hall d (List.mem_cons_self _ _)
          rw [hc] at this
          exact Except.noConfusion this
      | ok b =>
        cases b with
        | false =>
          simp only [check_all_dmarc_rejections, hc]
          constructor
          · intro h
            injection h with h
            exact Bool.noConfusion h
          · intro hall
            have := hall d (List.mem_cons_self _ _)
            rw [hc] at this
            injection this with h
            exact Bool.noConfusion h
        | true =>
          simp only [check_all_dmarc_rejections, hc]
          rw [List.forall_mem_cons]
          constructor
          · intro h
            exact ⟨hc, ih.mp h⟩
          · intro h
            exact ih.mpr h.2
  · intro ds1 d ds2 heq hpre hd
    subst heq
    induction ds1 with
    | nil => simp only [List.nil_append, check_all_dmarc_rejections, hd]
    | cons x xs ih =>
      have hx := hpre x (List.mem_cons_self _ _)
      simp only [List.cons_append, check_all_dmarc_rejections, hx]
      exact ih fun d' hd' => hpre d' (List.mem_cons_of_mem _ hd')

/-- Witness for C4: with an oracle under which `r.example` rejects and
`x.example` does not, the aggregate is true for `[r.example]` and false for
`[r.example, x.example, r.example]`. -/
theorem C4_witness :
    check_all_dmarc_rejections
      (fun d => .ok ⟨d, if d = pystr "r.example" then pystr "reject" else pystr "none", none⟩)
      [pystr "r.example"] = .ok true ∧
    check_all_dmarc_rejections
      (fun d => .ok ⟨d, if d = pystr "r.example" then pystr "reject" else pystr "none", none⟩)
      [pystr "r.example", pystr "x.example", pystr "r.example"] = .ok false :=
  ⟨(C4_check_all_dmarc_rejections _ _).1.mpr (by
      intro d hd
      rw [List.mem_singleton] at hd
      subst hd
      rfl),
    (C4_check_all_dmarc_rejections _ _).2 [pystr "r.example"] (pystr "x.example")
      [pystr "r.example"] rfl (by
      intro d' hd'
      rw [List.mem_singleton] at hd'
      subst hd'
      rfl) rfl⟩

/-- Counterexample to Claim C5: in the REVERSE branch, for a session whose
X-Original-From value is present and nonempty but whose From header is missing,
the engine is not a no-op: it deletes the X-Original-From header and then the
update of the missing From header raises, instead of performing no mutation and
accepting. -/
theorem C5_counterexample :
    rewrite_reverse none (some ⟨pystr "X-Original-From", pystr "x"⟩) (some (pystr "x")) =
      ([.delete ⟨pystr "X-Original-From", pystr "x"⟩], .error .attributeError) ∧
    ([SessionOp.delete ⟨pystr "X-Original-From", pystr "x"⟩] : List SessionOp) ≠ [] :=
  ⟨rfl, by decide⟩

/-- Claim C5 (amended): in the REVERSE branch a missing X-Original-From header
or a missing/empty X-Original-From value is guarded: no mutation is issued and
the handler proceeds to accept. A missing From header is not guarded: the
X-Original-From header is deleted and the subsequent update raises out of the
engine. -/
theorem C5_reverse_guard_amended :
    (∀ (fh ofh : Option Header) (ofv : Option PyStr),
      ofh = none ∨ ofv = none ∨ ofv = some [] →
      rewrite_reverse fh ofh ofv = ([], .ok false)) ∧
    (∀ (h : Header) (v : PyStr), v ≠ [] →
      rewrite_reverse none (some h) (some v) = ([.delete h], .error .attributeError)) ∧
    (∀ (ga : GetAddresses) (oracle : Oracle) (fmt : AddressFormatter) (cfg : Config)
      (headers : List Header) (rc : Option (List (PyStr × Req))),
      requiredFromCfg (get_config_value cfg (pystr "rewrite.require") .vNone) = .ok rc →
      check_required_headers rc (scanHeaders headers).mail_headers = true →
      (scanHeaders headers).original_from_header.isSome = true →
      cfgTruthy (get_config_value cfg (pystr "rewrite.reverse") (.vBool true)) = true →
      (scanHeaders headers).original_from_value = some [] →
      handle ga oracle fmt cfg headers = ([], .ok .accept)) := by
  refine ⟨?_, ?_, ?_⟩
  · intro fh ofh ofv hguard
    rcases hguard with h | h | h
    · subst h
      rfl
    · subst h
      cases ofh <;> rfl
    · subst h
      cases ofh <;> rfl
  · intro h v hv
    simp only [rewrite_reverse, if_neg hv]
  · intro ga oracle fmt cfg headers rc hrc hgate hsome hrev hofv
    obtain ⟨h, hh⟩ := Option.isSome_iff_exists.mp hsome
    simp only [handle, hrc, hgate, Bool.true_eq_false, if_false, hh, hrev,
      Option.isSome_some, Bool.and_self, if_true, hofv]
    simp [rewrite_reverse]

/-- Witness for the amended C5: the three cases at concrete inputs — a missing
X-Original-From header, a missing From header (mutation plus escaping error),
and a full session whose X-Original-From value is empty (accepted unchanged). -/
theorem C5_witness :
    rewrite_reverse (some ⟨pystr "From", pystr "a"⟩) none none = ([], .ok false) ∧
    rewrite_reverse none (some ⟨pystr "X-Original-From", pystr "b"⟩) (some (pystr "b")) =
      ([.delete ⟨pystr "X-Original-From", pystr "b"⟩], .error .attributeError) ∧
    handle (fun _ => []) (fun _ => .error ()) (fun _ _ _ => []) (fun _ => .error ())
      [⟨pystr "X-Original-From", []⟩] = ([], .ok .accept) :=
  ⟨C5_reverse_guard_amended.1 _ _ _ (Or.inl rfl),
    C5_reverse_guard_amended.2.1 _ _ (by decide),
    C5_reverse_guard_amended.2.2 _ _ _ _ _ none rfl rfl rfl rfl rfl⟩

/-- Counterexample to Claim C2: a session whose only header is a nonempty
X-Original-From (so the REVERSE branch runs) and which has no From header. The
fault inside the REVERSE branch is not caught: `handle` ends with an escaping
exception (after having deleted the X-Original-From header), not with Accept. -/
theorem C2_counterexample :
    handle (fun _ => []) (fun _ => .error ()) (fun _ _ _ => []) (fun _ => .error ())
      [⟨pystr "X-Original-From", pystr "someone@example.com"⟩] =
      ([.delete ⟨pystr "X-Original-From", pystr "someone@example.com"⟩],
        .error .attributeError) ∧
    (Except.error PyErr.attributeError : Except PyErr MilterResponse) ≠ .ok .accept :=
  ⟨rfl, fun hcontra => Except.noConfusion hcontra⟩

/-- Claim C2 (amended): internal exceptions during the FORWARD branch are caught
inside `rewrite_forward`, so whenever the per-message handler reaches the
forward path with a From value present (and the required-headers configuration
entry is well-formed) it returns Accept; but REVERSE-branch faults are not
caught: for a message with a nonempty X-Original-From value, reverse mode
enabled and no From header, the X-Original-From header is deleted and the
exception escapes `handle` to the milter runtime. -/
theorem C2_handle_exceptions_amended :
    (∀ (ga : GetAddresses) (oracle : Oracle) (fmt : AddressFormatter) (cfg : Config)
      (headers : List Header) (rc : Option (List (PyStr × Req))) (v : PyStr),
      requiredFromCfg (get_config_value cfg (pystr "rewrite.require") .vNone) = .ok rc →
      ((scanHeaders headers).original_from_header.isSome &&
        cfgTruthy (get_config_value cfg (pystr "rewrite.reverse") (.vBool true))) = false →
      (scanHeaders headers).from_value = some v →
      ∃ ops, handle ga oracle fmt cfg headers = (ops, .ok .accept)) ∧
    (∀ (ga : GetAddresses) (oracle : Oracle) (fmt : AddressFormatter) (cfg : Config)
      (headers : List Header) (rc : Option (List (PyStr × Req))) (h : Header) (v : PyStr),
      requiredFromCfg (get_config_value cfg (pystr "rewrite.require") .vNone) = .ok rc →
      check_required_headers rc (scanHeaders headers).mail_headers = true →
      (scanHeaders headers).from_header = none →
      (scanHeaders headers).original_from_header = some h →
      (scanHeaders headers).original_from_value = some v →
      v ≠ [] →
      cfgTruthy (get_config_value cfg (pystr "rewrite.reverse") (.vBool true)) = true →
      handle ga oracle fmt cfg headers = ([.delete h], .error .attributeError)) := by
  constructor
  · intro ga oracle fmt cfg headers rc v hrc hbranch hfv
    by_cases hgate :
        check_required_headers rc (scanHeaders headers).mail_headers = false
    · exact ⟨[], by simp only [handle, hrc, hgate, if_true]⟩
    · simp only [Bool.not_eq_false] at hgate
      by_cases hfw :
          cfgTruthy (get_config_value cfg (pystr "rewrite.forward") (.vBool true)) = true
      · refine ⟨(rewrite_forward ga oracle fmt cfg (scanHeaders headers).from_header v).1, ?_⟩
        simp only [handle, hrc, hgate, Bool.true_eq_false, if_false, hbranch,
          Bool.false_eq_true, hfw, if_true, hfv]
      · simp only [Bool.not_eq_true] at hfw
        refine ⟨[], ?_⟩
        simp only [handle, hrc, hgate, Bool.true_eq_false, if_false, hbranch,
          Bool.false_eq_true, hfw, if_false]
  · intro ga oracle fmt cfg headers rc h v hrc hgate hfh hofh hofv hv hrev
    simp only [handle, hrc, hgate, Bool.true_eq_false, if_false, hofh, hrev,
      Option.isSome_some, Bool.and_self, if_true, hfh, hofv]
    simp [rewrite_reverse, hv]

/-- Witness for the amended C2: a session carrying only a From header (so the
FORWARD branch is reached with a From value) is accepted. -/
theorem C2_witness :
    ∃ ops, handle (fun _ => []) (fun _ => .error ()) (fun _ _ _ => []) (fun _ => .error ())
      [⟨pystr "From", pystr "someone@example.com"⟩] = (ops, .ok .accept) :=
  C2_handle_exceptions_amended.1 _ _ _ _ _ none _ rfl rfl rfl

theorem filterMap_id_map_eq_nil {A B : Type} (l : List A) (g : A → Option B)
    (h : ∀ a ∈ l, g a = none) : (l.map g).filterMap id = [] := by
  induction l with
  | nil => rfl
  | cons x xs ih =>
    simp [h x (List.mem_cons_self _ _), ih fun a ha => h a (List.mem_cons_of_mem _ ha)]

/-- Claim C10: `check_all_dmarc_rejections` on an empty sequence returns true;
consequently in the FORWARD branch a From header none of whose parsed addresses
contains `@` (so every domain is excluded from the evaluation set) is still
rewritten — the X-Original-From header is inserted at the end and the From
header is updated — and no oracle is consulted: the conclusion holds for every
oracle and does not mention it. -/
theorem C10_forward_empty_domains (ga : GetAddresses) (oracle : Oracle)
    (fmt : AddressFormatter) (cfg : Config) (fh : Header) (from_value dom qc : PyStr)
    (hnoat : ∀ e ∈ ga from_value, (64 : Nat) ∉ e.2)
    (hdom : get_config_value cfg (pystr "domain") .vNone = .vStr dom)
    (hqc : get_config_value cfg (pystr "rewrite.quote_char") (.vStr (pystr "=")) = .vStr qc) :
    check_all_dmarc_rejections oracle [] = .ok true ∧
    rewrite_forward ga oracle fmt cfg (some fh) from_value =
      ([.insertEnd ⟨pystr "X-Original-From", from_value⟩,
        .update fh (pystr " " ++ joinSep (pystr ", ")
          ((ga from_value).map fun email => rewrite_email_address fmt email dom qc))],
        true) := by
  refine ⟨rfl, ?_⟩
  have hdomains :
      ((ga from_value).map fun email => extract_domain email.2).filterMap id = [] :=
    filterMap_id_map_eq_nil _ _ fun e he => by simp [extract_domain, hnoat e he]
  simp only [rewrite_forward, hdomains, List.filter_nil, check_all_dmarc_rejections,
    hdom, hqc, Bool.true_eq_false, if_false]

/-- Witness for C10: a From value parsing to a single address without `@`, a
configured rewrite domain, and the default quote character. -/
theorem C10_witness :
    (∀ e ∈ [(pystr "Some One", pystr "someone")], (64 : Nat) ∉ e.2) ∧
    rewrite_forward (fun _ => [(pystr "Some One", pystr "someone")]) (fun _ => .error ())
      (fun d l dm => d ++ l ++ dm)
      (fun k => if k = pystr "domain" then .ok (.vStr (pystr "dmarc.example.com"))
        else .error ())
      (some ⟨pystr "From", pystr "Some One <someone>"⟩) (pystr "Some One <someone>") =
      ([.insertEnd ⟨pystr "X-Original-From", pystr "Some One <someone>"⟩,
        .update ⟨pystr "From", pystr "Some One <someone>"⟩
          (pystr " " ++ joinSep (pystr ", ")
            ([(pystr "Some One", pystr "someone")].map fun email =>
              rewrite_email_address (fun d l dm => d ++ l ++ dm) email
                (pystr "dmarc.example.com") (pystr "=")))], true) :=
  ⟨by decide,
    (C10_forward_empty_domains (fun _ => [(pystr "Some One", pystr "someone")])
      (fun _ => .error ()) (fun d l dm => d ++ l ++ dm)
      (fun k => if k = pystr "domain" then .ok (.vStr (pystr "dmarc.example.com"))
        else .error ())
      ⟨pystr "From", pystr "Some One <someone>"⟩ (pystr "Some One <someone>")
      (pystr "dmarc.example.com") (pystr "=") (by decide) rfl rfl).2⟩
